import Mathlib

/-!
Verification development for the database-integrated task API
(examples/lesson-08-database/main.go).

The Go program is shallowly embedded: each embedded definition transliterates
one Go function (named in its doc comment), with machine state (the SQL
database) made explicit as a `DBState` value threaded through the operations.
Database responses that can only arise from the environment (transient
connection faults, or constraint violations caused by concurrent writers) are
modelled by an explicit oracle of injected errors consumed one entry per
database round trip, since the Go function's behaviour is a deterministic
function of the responses it receives.
-/

deriving instance DecidableEq for Except

namespace TaskAPI

/-- Embeds the Go struct User (main.go lines 53-64); fields not read by any
embedded operation (password hash, email verification, timestamps) are
omitted. -/
structure User where
  ID : String
  Email : String
  Role : String
  IsActive : Bool
  deriving Repr, DecidableEq

/-- Embeds the Go struct Task (main.go lines 66-77).  Timestamps are modelled
as naturals assigned from the database clock; the aggregated Categories field
of the Go struct is the result of the join performed by GetByID and is
returned separately by the embedded read operations. -/
structure Task where
  ID : String
  Title : String
  Description : String
  Completed : Bool
  Priority : String
  DueDate : Option Int
  UserID : String
  CreatedAt : Nat
  deriving Repr, DecidableEq

/-- Embeds the Go struct Category (main.go lines 79-86). -/
structure Category where
  ID : String
  Name : String
  Color : String
  UserID : String
  CreatedAt : Nat
  deriving Repr, DecidableEq

/-- Embeds the Go struct TaskFilters (main.go lines 193-202). -/
structure TaskFilters where
  Completed : Option Bool
  Priority : String
  Search : String
  DueBefore : Option Int
  DueAfter : Option Int
  CategoryIDs : List String
  Limit : Int
  Offset : Int
  deriving Repr, DecidableEq

/-- The database state: the four tables of the persisted schema
(users, tasks, categories, task_categories) plus the clock used for
created_at defaults.  Table rows are kept in insertion order. -/
structure DBState where
  now : Nat
  users : List User
  tasks : List Task
  categories : List Category
  taskCategories : List (String × String)
  deriving Repr, DecidableEq

/-- The error taxonomy observable from the embedded database operations:
PostgreSQL class 23505 (unique violation), class 23503 (foreign-key
violation), sql.ErrNoRows, and a transient transport fault. -/
inductive DBErr
  | notFound
  | uniqueViolation
  | fkViolation
  | fault
  deriving Repr, DecidableEq

/-! ## Case-insensitive substring matching (SQL ILIKE with % on both sides) -/

/-- ASCII lower-casing of one character (the model of ILIKE's
case folding). -/
def lowerChar (c : Char) : Char :=
  if 65 ≤ c.toNat ∧ c.toNat ≤ 90 then Char.ofNat (c.toNat + 32) else c

/-- Character-list equality of a leading segment: needle matches at the head
of hay. -/
def leadsWith : List Char → List Char → Bool
  | [], _ => true
  | _ :: _, [] => false
  | a :: as, b :: bs => a == b && leadsWith as bs

/-- needle occurs contiguously somewhere in hay. -/
def hasSubstr (needle : List Char) : List Char → Bool
  | [] => needle.isEmpty
  | c :: rest => leadsWith needle (c :: rest) || hasSubstr needle rest

/-- Embeds ILIKE with the pattern wrapped in % wildcards
(main.go lines 398-404 and 529-535): case-insensitive substring match. -/
def containsCI (hay pat : String) : Bool :=
  hasSubstr (pat.data.map lowerChar) (hay.data.map lowerChar)

/-! ## The WHERE clause of taskRepository.GetByUserID and taskRepository.Count

Both Go functions build their predicate from the same three optional filters;
each is transliterated separately from its own lines so that their agreement
is a proved fact, not an assumption. -/

/-- Embeds the WHERE clause assembled by taskRepository.GetByUserID
(main.go lines 381-407): t.user_id = $1, then AND-joined optional conditions
for completed, priority and search. -/
def matchesFiltersList (uid : String) (f : TaskFilters) (t : Task) : Bool :=
  t.UserID == uid
  && (match f.Completed with
      | some c => t.Completed == c
      | none => true)
  && (if f.Priority != "" then t.Priority == f.Priority else true)
  && (if f.Search != "" then
        containsCI t.Title f.Search || containsCI t.Description f.Search
      else true)

/-- Embeds the WHERE clause assembled by taskRepository.Count
(main.go lines 514-538): user_id = $1, then AND-joined optional conditions
for completed, priority and search. -/
def matchesFiltersCount (uid : String) (f : TaskFilters) (t : Task) : Bool :=
  t.UserID == uid
  && (match f.Completed with
      | some c => t.Completed == c
      | none => true)
  && (if f.Priority != "" then t.Priority == f.Priority else true)
  && (if f.Search != "" then
        containsCI t.Title f.Search || containsCI t.Description f.Search
      else true)

/-! ## ORDER BY t.created_at DESC -/

/-- Inserts a task into a list sorted by created_at descending, keeping it
behind every earlier element with an equal or larger timestamp (a stable
insertion step). -/
def insertDesc (t : Task) : List Task → List Task
  | [] => [t]
  | h :: rest =>
    if h.CreatedAt ≤ t.CreatedAt then t :: h :: rest else h :: insertDesc t rest

/-- Stable sort by created_at descending: one deterministic order consistent
with the ORDER BY t.created_at DESC clause (main.go line 413). -/
def sortByCreatedDesc : List Task → List Task
  | [] => []
  | h :: rest => insertDesc h (sortByCreatedDesc rest)

/-- Embeds taskRepository.GetByUserID (main.go lines 367-465).  The query
joins task_categories and categories but groups by the task columns, so it
yields one row per matching task; the category aggregation does not affect
which tasks appear.  LIMIT is appended only when Limit > 0 and OFFSET only
when Offset > 0 (lines 415-424); SQL applies OFFSET before LIMIT. -/
def getByUserID (s : DBState) (uid : String) (f : TaskFilters) : List Task :=
  let rows := sortByCreatedDesc (s.tasks.filter (matchesFiltersList uid f))
  let rows := if f.Offset > 0 then rows.drop f.Offset.toNat else rows
  if f.Limit > 0 then rows.take f.Limit.toNat else rows

/-- Embeds taskRepository.Count (main.go lines 509-544):
SELECT COUNT(*) FROM tasks under the Count WHERE clause; no pagination. -/
def countTasks (s : DBState) (uid : String) (f : TaskFilters) : Nat :=
  (s.tasks.filter (matchesFiltersCount uid f)).length

/-! ## ORDER BY as a relation on outputs

The ORDER BY t.created_at DESC clause (main.go line 413) names no secondary
sort key, so SQL constrains the result only up to the relation below. -/

/-- A list is ordered newest-created-first: every later element's created_at
is at most every earlier one's. -/
def sortedByCreatedDesc (l : List Task) : Prop :=
  l.Pairwise (fun a b => b.CreatedAt ≤ a.CreatedAt)

/-- The possible unpaginated result rows of the GetByUserID query under SQL
semantics: some arrangement of the matching tasks that is sorted by
created_at descending.  No tie-break among equal timestamps is fixed by the
query. -/
def permissibleListResult (s : DBState) (uid : String) (f : TaskFilters)
    (out : List Task) : Prop :=
  out.Perm (s.tasks.filter (matchesFiltersList uid f)) ∧ sortedByCreatedDesc out

/-! ## Primitive database operations of the composition path

Each operation is the Go repository method named in its doc comment, executed
against the explicit state.  The repositories were constructed over the pool
handle (NewHandler, main.go lines 795-808), so every repository call inside
CreateTaskWithCategories runs in auto-commit mode and its writes land in the
committed state immediately; only the raw task_categories insert issued on tx
is buffered until commit. -/

/-- Pops the next injected response from the environment oracle: some e means
the round trip fails with e (a transport fault, or a constraint violation
raced in by a concurrent writer); none means the database answers from the
modelled state. -/
def popInj : List (Option DBErr) → Option DBErr × List (Option DBErr)
  | [] => (none, [])
  | o :: rest => (o, rest)

/-- Pops the next generated identifier (uuid.New().String()). -/
def popId : List String → String × List String
  | [] => ("", [])
  | i :: rest => (i, rest)

/-- Overrides a computed database answer with an injected environment
response when one is scheduled. -/
def injected (o : Option DBErr) (k : Except DBErr α) : Except DBErr α :=
  match o with
  | some e => .error e
  | none => k

/-- The users table holds a row with this id (the FK target of
tasks.user_id and categories.user_id). -/
def userExists (s : DBState) (uid : String) : Bool :=
  s.users.any (fun u => u.ID == uid)

/-- Embeds taskRepository.Create (main.go lines 309-319): INSERT INTO tasks
with RETURNING created_at; the primary key on id and the foreign key
tasks.user_id → users.id are enforced by the store. -/
def taskInsert (s : DBState) (t : Task) : Except DBErr (Task × DBState) :=
  if s.tasks.any (fun u => u.ID == t.ID) then .error .uniqueViolation
  else if !(userExists s t.UserID) then .error .fkViolation
  else
    let stored := { t with CreatedAt := s.now }
    .ok (stored, { s with tasks := s.tasks ++ [stored], now := s.now + 1 })

/-- Embeds categoryRepository.GetByName (main.go lines 592-611): select by
(name, user_id); sql.ErrNoRows maps to notFound. -/
def categoryGetByName (s : DBState) (name uid : String) : Except DBErr Category :=
  match s.categories.find? (fun c => c.Name == name && c.UserID == uid) with
  | some c => .ok c
  | none => .error .notFound

/-- Embeds categoryRepository.Create (main.go lines 554-563): INSERT INTO
categories with RETURNING created_at; the unique constraint on
(name, user_id), the primary key on id and the foreign key
categories.user_id → users.id are enforced by the store. -/
def categoryInsert (s : DBState) (c : Category) : Except DBErr (Category × DBState) :=
  if s.categories.any (fun d => d.ID == c.ID) then .error .uniqueViolation
  else if s.categories.any (fun d => d.Name == c.Name && d.UserID == c.UserID) then
    .error .uniqueViolation
  else if !(userExists s c.UserID) then .error .fkViolation
  else
    let stored := { c with CreatedAt := s.now }
    .ok (stored, { s with categories := s.categories ++ [stored], now := s.now + 1 })

/-- Embeds the raw INSERT INTO task_categories ... ON CONFLICT DO NOTHING
(main.go lines 766-768) executed through the transaction handle: an
already-present (task_id, category_id) pair — committed or buffered in this
transaction — is left untouched; a new pair is buffered until commit. -/
def linkInsert (s : DBState) (txLinks : List (String × String)) (tid cid : String) :
    Except DBErr (List (String × String)) :=
  if !(s.tasks.any (fun t => t.ID == tid)) || !(s.categories.any (fun c => c.ID == cid)) then
    .error .fkViolation
  else if (s.taskCategories ++ txLinks).contains (tid, cid) then .ok txLinks
  else .ok (txLinks ++ [(tid, cid)])

/-- Embeds taskRepository.GetByID (main.go lines 321-365): the task row with
its categories aggregated through the task_categories join. -/
def taskGetByID (s : DBState) (tid : String) : Except DBErr (Task × List Category) :=
  match s.tasks.find? (fun t => t.ID == tid) with
  | none => .error .notFound
  | some t =>
    .ok (t, (s.taskCategories.filter (fun p => p.1 == tid)).filterMap
      (fun p => s.categories.find? (fun c => c.ID == p.2)))

/-- Embeds the Go struct CreateTaskRequest (main.go lines 106-112). -/
structure CreateTaskRequest where
  Title : String
  Description : String
  Priority : String
  DueDate : Option Int
  CategoryNames : List String
  deriving Repr, DecidableEq

/-- Embeds the category loop of TaskService.CreateTaskWithCategories
(main.go lines 748-772), iterating over the request's category names with the
committed state, the transaction's buffered links, the environment oracle and
the id supply threaded through.  As in the Go code, ANY GetByName error — not
only a missing row — sends control into the create branch, and any error from
the create or from the link insert is returned to WithTransaction as is. -/
def handleCategories (uid tid : String) :
    List String → DBState → List (String × String) → List (Option DBErr) → List String →
    Except DBErr Unit × DBState × List (String × String) × List (Option DBErr) × List String
  | [], s, tx, inj, ids => (.ok (), s, tx, inj, ids)
  | name :: rest, s, tx, inj, ids =>
    let (o1, inj) := popInj inj
    match injected o1 (categoryGetByName s name uid) with
    | .ok cat =>
      let (o2, inj) := popInj inj
      match injected o2 (linkInsert s tx tid cat.ID) with
      | .error e => (.error e, s, tx, inj, ids)
      | .ok tx2 => handleCategories uid tid rest s tx2 inj ids
    | .error _ =>
      let (cid, ids) := popId ids
      let (o2, inj) := popInj inj
      match injected o2 (categoryInsert s ⟨cid, name, "#3B82F6", uid, 0⟩) with
      | .error e => (.error e, s, tx, inj, ids)
      | .ok (cat, s2) =>
        let (o3, inj) := popInj inj
        match injected o3 (linkInsert s2 tx tid cat.ID) with
        | .error e => (.error e, s2, tx, inj, ids)
        | .ok tx2 => handleCategories uid tid rest s2 tx2 inj ids

/-- Embeds TaskService.CreateTaskWithCategories (main.go lines 729-783)
together with the WithTransaction wrapper it runs under (lines 661-680).
Returns the outcome and the final committed state.  The task insert and all
category repository calls run on the pool handle in auto-commit mode; an
error from any step makes WithTransaction roll back, which discards only the
buffered task_categories rows — auto-committed writes stay in the state. -/
def createTaskWithCategories (s : DBState) (req : CreateTaskRequest) (uid : String)
    (ids : List String) (inj : List (Option DBErr)) :
    Except DBErr (Task × List Category) × DBState :=
  let (o0, inj) := popInj inj
  match o0 with
  | some e => (.error e, s)
  | none =>
    let (tid, ids) := popId ids
    let task : Task := ⟨tid, req.Title, req.Description, false, req.Priority, req.DueDate, uid, 0⟩
    let (o1, inj) := popInj inj
    match injected o1 (taskInsert s task) with
    | .error e => (.error e, s)
    | .ok (task1, s1) =>
      match handleCategories uid task1.ID req.CategoryNames s1 [] inj ids with
      | (.error e, s2, _, _, _) => (.error e, s2)
      | (.ok (), s2, tx, inj2, _) =>
        let (oc, inj3) := popInj inj2
        match oc with
        | some e => (.error e, s2)
        | none =>
          let s3 := { s2 with taskCategories := s2.taskCategories ++ tx }
          let (og, _) := popInj inj3
          match injected og (taskGetByID s3 task1.ID) with
          | .error e => (.error e, s3)
          | .ok res => (.ok res, s3)

/-! ## WithTransaction at the level of observable outcomes -/

/-- Outcome of the unit of work passed to WithTransaction: normal return
(nil or an error) or an unrecovered fault carrying a payload. -/
inductive FnOutcome
  | ok
  | fail (e : String)
  | panicOut (p : String)
  deriving Repr, DecidableEq

/-- Observable result of WithTransaction: commit reached, an error returned,
or the fault re-raised (recording whether rollback ran first). -/
inductive TxResult
  | success
  | failure (e : String)
  | panicked (p : String) (rolledBack : Bool)
  deriving Repr, DecidableEq

/-- Embeds WithTransaction (main.go lines 661-680) over the outcomes of its
steps: db.Begin() may fail; the deferred recover rolls back and re-raises a
fault from fn; an error from fn triggers tx.Rollback() whose RESULT VALUE THE
CODE DISCARDS (line 675: the statement is bare tx.Rollback()) before the fn
error is returned; on success the tx.Commit() error is returned. -/
def withTransaction (beginErr : Option String) (fn : FnOutcome)
    (rollbackErr : Option String) (commitErr : Option String) : TxResult :=
  match beginErr with
  | some e => .failure e
  | none =>
    match fn with
    | .panicOut p => .panicked p true
    | .fail e => .failure e
    | .ok =>
      match commitErr with
      | some e => .failure e
      | none => .success

/-! ## Token service -/

/-- Embeds the Go struct JWTClaims (main.go lines 614-619): identity claims
plus the registered claims carried (expiry and issued-at instants, modelled
as unix seconds). -/
structure JWTClaims where
  UserID : String
  Email : String
  Role : String
  ExpiresAt : Int
  IssuedAt : Int
  deriving Repr, DecidableEq

/-- Token validation errors surfaced by the jwt library. -/
inductive TokenErr
  | expired
  | invalidSignature
  | malformed
  deriving Repr, DecidableEq

/-- A token after base64/JSON decoding: its claims and its signature part. -/
structure Token where
  claims : JWTClaims
  signature : String
  deriving Repr, DecidableEq

/-- Modelled from the spec: the HMAC-SHA256 signature the golang-jwt/v5
library computes over the encoded claims with the configured secret.  The
library is a module dependency, not part of src/, so the MAC is abstracted as
a tag determined by the secret and the claims; a signature verifies exactly
when it equals this tag. -/
def mac (secret : String) (c : JWTClaims) : String :=
  "HS256|" ++ secret ++ "|" ++ c.UserID ++ "|" ++ c.Email ++ "|" ++ c.Role
    ++ "|" ++ toString c.ExpiresAt ++ "|" ++ toString c.IssuedAt

/-- Modelled from the spec: jwt.ParseWithClaims of golang-jwt/v5 (invoked at
main.go lines 645-647) verifies the token signature under the keyfunc's key
before validating the registered claims, and rejects an exp instant that has
passed; only a token passing both checks yields its claims. -/
def parseWithClaims (secret : String) (now : Int) (t : Token) :
    Except TokenErr JWTClaims :=
  if t.signature != mac secret t.claims then .error .invalidSignature
  else if t.claims.ExpiresAt < now then .error .expired
  else .ok t.claims

/-- Embeds JWTService.ValidateToken (main.go lines 644-658): parse with the
service secret, return any parse error, otherwise return the claims. -/
def ValidateToken (secret : String) (now : Int) (t : Token) :
    Except TokenErr JWTClaims :=
  match parseWithClaims secret now t with
  | .error e => .error e
  | .ok c => .ok c

/-- Embeds JWTService.GenerateToken (main.go lines 629-642): claims carry the
user identity with a 24-hour expiry, signed with the service secret. -/
def GenerateToken (secret : String) (now : Int) (u : User) : Token :=
  let c : JWTClaims := ⟨u.ID, u.Email, u.Role, now + 24 * 3600, now⟩
  ⟨c, mac secret c⟩

/-! ## Handler.GetTasks query-parameter handling -/

/-- Embeds the limit handling of Handler.GetTasks (main.go lines 925-945):
the limit starts at 10 and is overridden only when strconv.Atoi succeeds on a
nonempty parameter with a value l satisfying 0 < l ≤ 100.  The argument is
the Atoi result: none when the parameter is absent or fails to parse. -/
def effectiveLimit (limitParam : Option Int) : Int :=
  match limitParam with
  | some l => if 0 < l ∧ l ≤ 100 then l else 10
  | none => 10

/-- Embeds the offset handling of Handler.GetTasks (main.go lines 947-951):
the offset starts at 0 and is overridden only by a parsed value o ≥ 0. -/
def effectiveOffset (offsetParam : Option Int) : Int :=
  match offsetParam with
  | some o => if o ≥ 0 then o else 0
  | none => 0

/-- Embeds the page computation of the task-list response
(main.go line 976): Offset/Limit + 1. -/
def pageOf (offset limit : Int) : Int := offset / limit + 1

/-! ## The per-user category-name uniqueness invariant -/

/-- No two rows of the categories table share (name, user_id): the unique
constraint of the persisted schema. -/
def catNamesUnique (s : DBState) : Prop :=
  s.categories.Pairwise (fun a b => ¬(a.Name = b.Name ∧ a.UserID = b.UserID))

/-! ## Concrete fixtures used by counterexamples and witnesses -/

/-- A single active user. -/
def activeUser : User := ⟨"u1", "a@b.c", "user", true⟩

/-- Fresh database holding only the active user. -/
def freshState : DBState := ⟨0, [activeUser], [], [], []⟩

/-- A creation request naming a single category "A". -/
def oneCatReq : CreateTaskRequest := ⟨"T", "D", "high", none, ["A"]⟩

/-- The C1 run: Begin, the task INSERT, the category SELECT and the category
INSERT succeed; the task-category link INSERT (the fifth round trip) fails
with a transport fault. -/
def c1Run : Except DBErr (Task × List Category) × DBState :=
  createTaskWithCategories freshState oneCatReq "u1" ["t1", "c1"]
    [none, none, none, none, some DBErr.fault]

/-- Database whose only user exists but is inactive. -/
def inactiveState : DBState := ⟨0, [⟨"u1", "a@b.c", "user", false⟩], [], [], []⟩

/-- A task whose due date (10) is after the DueBefore bound (5) and before
the DueAfter bound (20), with no category links at all. -/
def dueTask : Task := ⟨"t1", "x", "y", false, "low", some 10, "u1", 3⟩

/-- State holding only dueTask; no categories, no links. -/
def dueState : DBState := ⟨4, [activeUser], [dueTask], [], []⟩

/-- Filters whose only present fields are the due-date bounds and a category
id set matching nothing. -/
def ignoredFilters : TaskFilters := ⟨none, "", "", some 5, some 20, ["nope"], 0, 0⟩

/-! ## Lemmas about the sort step -/

theorem insertDesc_perm (t : Task) : ∀ l : List Task, (insertDesc t l).Perm (t :: l)
  | [] => List.Perm.refl _
  | h :: rest => by
    unfold insertDesc
    by_cases hc : h.CreatedAt ≤ t.CreatedAt
    · rw [if_pos hc]
    · rw [if_neg hc]
      exact ((insertDesc_perm t rest).cons h).trans (List.Perm.swap t h rest)

theorem sortByCreatedDesc_perm : ∀ l : List Task, (sortByCreatedDesc l).Perm l
  | [] => List.Perm.refl _
  | h :: rest => by
    unfold sortByCreatedDesc
    exact (insertDesc_perm h (sortByCreatedDesc rest)).trans
      ((sortByCreatedDesc_perm rest).cons h)

theorem sortedByCreatedDesc_insertDesc (t : Task) (l : List Task)
    (hl : sortedByCreatedDesc l) : sortedByCreatedDesc (insertDesc t l) := by
  induction l with
  | nil => simp [insertDesc, sortedByCreatedDesc]
  | cons h rest ih =>
    unfold sortedByCreatedDesc at hl ⊢
    rcases List.pairwise_cons.mp hl with ⟨hh, hrest⟩
    unfold insertDesc
    by_cases hc : h.CreatedAt ≤ t.CreatedAt
    · rw [if_pos hc]
      refine List.pairwise_cons.mpr ⟨?_, hl⟩
      intro b hb
      rcases List.mem_cons.mp hb with hb | hb
      · exact hb ▸ hc
      · exact le_trans (hh b hb) hc
    · rw [if_neg hc]
      refine List.pairwise_cons.mpr ⟨?_, ih hrest⟩
      intro b hb
      rcases List.mem_cons.mp ((insertDesc_perm t rest).mem_iff.mp hb) with hb | hb
      · exact hb ▸ le_of_not_le hc
      · exact hh b hb

theorem sortByCreatedDesc_sorted : ∀ l : List Task, sortedByCreatedDesc (sortByCreatedDesc l)
  | [] => List.Pairwise.nil
  | h :: rest => by
    unfold sortByCreatedDesc
    exact sortedByCreatedDesc_insertDesc h _ (sortByCreatedDesc_sorted rest)

theorem sortedByCreatedDesc_take (n : Nat) (l : List Task)
    (h : sortedByCreatedDesc l) : sortedByCreatedDesc (l.take n) :=
  List.Pairwise.sublist (List.take_sublist n l) h

theorem sortedByCreatedDesc_drop (n : Nat) (l : List Task)
    (h : sortedByCreatedDesc l) : sortedByCreatedDesc (l.drop n) :=
  List.Pairwise.sublist (List.drop_sublist n l) h

/-! ## Claims -/

/-- C2: for every user id and TaskFilters value, taskRepository.Count returns
exactly the number of rows taskRepository.GetByUserID returns without
pagination (Limit and Offset zero, which is how the code itself encodes "no
LIMIT/OFFSET clause"): the two WHERE clauses, transliterated independently,
select the same task set under every combination of the completed, priority
and search filters. -/
theorem c2_count_matches_list (s : DBState) (uid : String) (f : TaskFilters) :
    countTasks s uid f = (getByUserID s uid { f with Limit := 0, Offset := 0 }).length := by
  show (s.tasks.filter (matchesFiltersCount uid f)).length
      = (sortByCreatedDesc (s.tasks.filter (matchesFiltersList uid f))).length
  rw [(sortByCreatedDesc_perm _).length_eq]
  rfl

/-- C9 counterexample: two stored tasks with equal created_at timestamps can
be returned in either order by the GetByUserID query — ORDER BY
t.created_at DESC names no tie-break — so the result order is not determined
by insertion order and two runs over the same state need not agree. -/
theorem c9_tie_order_not_deterministic :
    permissibleListResult ⟨8, [activeUser],
        [⟨"a", "x", "y", false, "low", none, "u1", 7⟩,
         ⟨"b", "x", "y", false, "low", none, "u1", 7⟩], [], []⟩ "u1"
        ⟨none, "", "", none, none, [], 0, 0⟩
        [⟨"a", "x", "y", false, "low", none, "u1", 7⟩,
         ⟨"b", "x", "y", false, "low", none, "u1", 7⟩]
    ∧ permissibleListResult ⟨8, [activeUser],
        [⟨"a", "x", "y", false, "low", none, "u1", 7⟩,
         ⟨"b", "x", "y", false, "low", none, "u1", 7⟩], [], []⟩ "u1"
        ⟨none, "", "", none, none, [], 0, 0⟩
        [⟨"b", "x", "y", false, "low", none, "u1", 7⟩,
         ⟨"a", "x", "y", false, "low", none, "u1", 7⟩]
    ∧ ([⟨"a", "x", "y", false, "low", none, "u1", 7⟩,
        ⟨"b", "x", "y", false, "low", none, "u1", 7⟩] :
        List Task) ≠
       [⟨"b", "x", "y", false, "low", none, "u1", 7⟩,
        ⟨"a", "x", "y", false, "low", none, "u1", 7⟩] := by
  refine ⟨⟨by decide, ?_⟩, ⟨by decide, ?_⟩, by decide⟩ <;> unfold sortedByCreatedDesc <;> decide

/-- C9 (amended): GetByUserID returns the matching tasks ordered
newest-created-first by created_at (its sorted output is one permissible
arrangement of the matching set, and remains sorted under pagination); the
query fixes no tie-break among equal created_at values, so the relative order
of ties is not guaranteed. -/
theorem c9_list_sorted_newest_first (s : DBState) (uid : String) (f : TaskFilters) :
    permissibleListResult s uid { f with Limit := 0, Offset := 0 }
        (getByUserID s uid { f with Limit := 0, Offset := 0 })
      ∧ sortedByCreatedDesc (getByUserID s uid f) := by
  refine ⟨⟨?_, ?_⟩, ?_⟩
  · show (sortByCreatedDesc (s.tasks.filter (matchesFiltersList uid f))).Perm
      (s.tasks.filter (matchesFiltersList uid f))
    exact sortByCreatedDesc_perm _
  · show sortedByCreatedDesc (sortByCreatedDesc (s.tasks.filter (matchesFiltersList uid f)))
    exact sortByCreatedDesc_sorted _
  · show sortedByCreatedDesc
      (if f.Limit > 0 then
        (if f.Offset > 0 then
          (sortByCreatedDesc (s.tasks.filter (matchesFiltersList uid f))).drop f.Offset.toNat
         else sortByCreatedDesc (s.tasks.filter (matchesFiltersList uid f))).take f.Limit.toNat
       else
        (if f.Offset > 0 then
          (sortByCreatedDesc (s.tasks.filter (matchesFiltersList uid f))).drop f.Offset.toNat
         else sortByCreatedDesc (s.tasks.filter (matchesFiltersList uid f))))
    have base := sortByCreatedDesc_sorted (s.tasks.filter (matchesFiltersList uid f))
    have hdrop : sortedByCreatedDesc
        (if f.Offset > 0 then
          (sortByCreatedDesc (s.tasks.filter (matchesFiltersList uid f))).drop f.Offset.toNat
         else sortByCreatedDesc (s.tasks.filter (matchesFiltersList uid f))) := by
      split
      · exact sortedByCreatedDesc_drop _ _ base
      · exact base
    split
    · exact sortedByCreatedDesc_take _ _ hdrop
    · exact hdrop

/-- C10: the effective pagination limit used by Handler.GetTasks always lies
in 1..100 — a limit parameter is honored only when it parses with
0 < l ≤ 100, otherwise the default 10 applies — a negative offset is
replaced by the default 0, and hence the response's page computation
Offset/Limit + 1 never divides by zero and yields a page of at least 1. -/
theorem c10_limit_bounds (lp op : Option Int) :
    (1 ≤ effectiveLimit lp ∧ effectiveLimit lp ≤ 100)
    ∧ 0 ≤ effectiveOffset op
    ∧ effectiveLimit lp ≠ 0
    ∧ 1 ≤ pageOf (effectiveOffset op) (effectiveLimit lp) := by
  have hl : 1 ≤ effectiveLimit lp ∧ effectiveLimit lp ≤ 100 := by
    cases lp with
    | none => simp only [effectiveLimit]; omega
    | some l => simp only [effectiveLimit]; split <;> omega
  have ho : 0 ≤ effectiveOffset op := by
    cases op with
    | none => simp only [effectiveOffset]; omega
    | some o => simp only [effectiveOffset]; split <;> omega
  refine ⟨hl, ho, by omega, ?_⟩
  unfold pageOf
  have : 0 ≤ effectiveOffset op / effectiveLimit lp :=
    Int.ediv_nonneg ho (by omega)
  omega

/-- C6: validation rejects a token whose expiration instant has passed with
the expiration error even when its signature is valid; rejects a token whose
signature does not verify under the configured secret with the signature
error regardless of the claims it carries; and returns claims only for a
token that passes both checks. -/
theorem c6_token_validation_order (secret : String) (now : Int) (t : Token) :
    (t.claims.ExpiresAt < now → t.signature = mac secret t.claims →
      ValidateToken secret now t = .error .expired)
    ∧ (t.signature ≠ mac secret t.claims →
      ValidateToken secret now t = .error .invalidSignature)
    ∧ (∀ c, ValidateToken secret now t = .ok c →
      c = t.claims ∧ t.signature = mac secret t.claims ∧ ¬ t.claims.ExpiresAt < now) := by
  refine ⟨?_, ?_, ?_⟩
  · intro hexp hsig
    unfold ValidateToken parseWithClaims
    simp [hsig, hexp]
  · intro hsig
    unfold ValidateToken parseWithClaims
    simp [hsig]
  · intro c h
    unfold ValidateToken parseWithClaims at h
    by_cases hsig : t.signature = mac secret t.claims
    · by_cases hexp : t.claims.ExpiresAt < now
      · simp [hsig, hexp] at h
      · simp [hsig, hexp] at h
        exact ⟨h.symm, hsig, hexp⟩
    · simp [hsig] at h

/-- C6 witness: a concrete expired-but-correctly-signed token is rejected as
expired, and the same claims under a tampered signature are rejected as an
invalid signature. -/
theorem c6_witness :
    ValidateToken "k" 20 ⟨⟨"u9", "e", "user", 10, 0⟩, mac "k" ⟨"u9", "e", "user", 10, 0⟩⟩
        = .error .expired
    ∧ ValidateToken "k" 5 ⟨⟨"u9", "e", "user", 10, 0⟩, "bad"⟩
        = .error .invalidSignature := by
  constructor
  · exact (c6_token_validation_order "k" 20 _).1 (by decide) rfl
  · exact (c6_token_validation_order "k" 5 _).2.1 (by decide)

/-- C7 counterexample: when the unit of work fails and the rollback also
fails, WithTransaction returns only the original unit-of-work error, and the
result is identical to the run in which rollback succeeds — the statement at
main.go line 675 is a bare tx.Rollback() whose result is discarded — so the
two errors are never reported wrapped together as the claim requires. -/
theorem c7_rollback_error_discarded :
    withTransaction none (.fail "unit of work failed") (some "rollback failed") none
        = .failure "unit of work failed"
    ∧ withTransaction none (.fail "unit of work failed") (some "rollback failed") none
        = withTransaction none (.fail "unit of work failed") none none :=
  ⟨rfl, rfl⟩

/-- C7 (amended): on a unit-of-work error WithTransaction rolls back and
propagates that original error unchanged, silently discarding any rollback
failure instead of wrapping the two together; on a fault it rolls back before
re-raising it; on success it commits, a commit failure being returned as that
distinct error and nil otherwise. -/
theorem c7_transaction_outcomes :
    (∀ (e : String) (rb c : Option String),
      withTransaction none (.fail e) rb c = .failure e)
    ∧ (∀ (p : String) (rb c : Option String),
      withTransaction none (.panicOut p) rb c = .panicked p true)
    ∧ (∀ (rb : Option String) (e : String),
      withTransaction none .ok rb (some e) = .failure e)
    ∧ (∀ rb : Option String, withTransaction none .ok rb none = .success) :=
  ⟨fun _ _ _ => rfl, fun _ _ _ => rfl, fun _ _ => rfl, fun _ => rfl⟩

/-! ## C8: which filters constrain the result -/

theorem mem_getByUserID_matches (s : DBState) (uid : String) (f : TaskFilters)
    (t : Task) (ht : t ∈ getByUserID s uid f) : matchesFiltersList uid f t = true := by
  have ht' : t ∈ (if f.Limit > 0 then
      (if f.Offset > 0 then
        (sortByCreatedDesc (s.tasks.filter (matchesFiltersList uid f))).drop f.Offset.toNat
       else sortByCreatedDesc (s.tasks.filter (matchesFiltersList uid f))).take f.Limit.toNat
     else
      (if f.Offset > 0 then
        (sortByCreatedDesc (s.tasks.filter (matchesFiltersList uid f))).drop f.Offset.toNat
       else sortByCreatedDesc (s.tasks.filter (matchesFiltersList uid f)))) := ht
  have h1 : t ∈ (if f.Offset > 0 then
      (sortByCreatedDesc (s.tasks.filter (matchesFiltersList uid f))).drop f.Offset.toNat
     else sortByCreatedDesc (s.tasks.filter (matchesFiltersList uid f))) := by
    by_cases hL : f.Limit > 0
    · rw [if_pos hL] at ht'
      exact (List.take_sublist _ _).subset ht'
    · rw [if_neg hL] at ht'
      exact ht'
  have h2 : t ∈ sortByCreatedDesc (s.tasks.filter (matchesFiltersList uid f)) := by
    by_cases hO : f.Offset > 0
    · rw [if_pos hO] at h1
      exact (List.drop_sublist _ _).subset h1
    · rw [if_neg hO] at h1
      exact h1
  exact (List.mem_filter.mp ((sortByCreatedDesc_perm _).mem_iff.mp h2)).2

/-- C8 counterexample: a task due at 10 is returned although the filters
demand due before 5, due after 20, and membership in category "nope" (the
task has no links): GetByUserID never applies DueBefore, DueAfter or
CategoryIDs, so these declared filters do not restrict the result. -/
theorem c8_due_and_category_filters_ignored :
    getByUserID dueState "u1" ignoredFilters = [dueTask]
    ∧ ignoredFilters.DueBefore = some 5
    ∧ ignoredFilters.DueAfter = some 20
    ∧ ignoredFilters.CategoryIDs = ["nope"]
    ∧ dueTask.DueDate = some 10
    ∧ dueState.taskCategories = [] := by
  refine ⟨by decide, rfl, rfl, rfl, rfl, rfl⟩

/-- C8 (amended): the completed, priority and search filters each constrain
the returned tasks and combine with logical AND on top of the user-id match;
with every filter absent the (unpaginated) result is exactly the user's
tasks; but the DueBefore, DueAfter and CategoryIDs fields are never applied —
the result is unchanged when they are cleared. -/
theorem c8_filters_semantics :
    (∀ (s : DBState) (uid : String) (f : TaskFilters) (t : Task),
      t ∈ getByUserID s uid f →
        t.UserID = uid
        ∧ (∀ c, f.Completed = some c → t.Completed = c)
        ∧ (f.Priority ≠ "" → t.Priority = f.Priority)
        ∧ (f.Search ≠ "" →
            (containsCI t.Title f.Search || containsCI t.Description f.Search) = true))
    ∧ (∀ (s : DBState) (uid : String) (f : TaskFilters),
        getByUserID s uid f
          = getByUserID s uid { f with DueBefore := none, DueAfter := none, CategoryIDs := [] })
    ∧ (∀ (s : DBState) (uid : String),
        (getByUserID s uid ⟨none, "", "", none, none, [], 0, 0⟩).Perm
          (s.tasks.filter (fun t => t.UserID == uid))) := by
  refine ⟨?_, ?_, ?_⟩
  · intro s uid f t ht
    have hm := mem_getByUserID_matches s uid f t ht
    unfold matchesFiltersList at hm
    simp only [Bool.and_eq_true] at hm
    obtain ⟨⟨⟨h1, h2⟩, h3⟩, h4⟩ := hm
    refine ⟨by simpa using h1, ?_, ?_, ?_⟩
    · intro c hc
      rw [hc] at h2
      simpa using h2
    · intro hp
      rw [if_pos (bne_iff_ne.mpr hp)] at h3
      simpa using h3
    · intro hsrch
      rw [if_pos (bne_iff_ne.mpr hsrch)] at h4
      exact h4
  · intro s uid f
    rfl
  · intro s uid
    have hfe : s.tasks.filter
        (matchesFiltersList uid ⟨none, "", "", none, none, [], 0, 0⟩)
        = s.tasks.filter (fun t => t.UserID == uid) := by
      apply List.filter_congr
      intro t _
      show (t.UserID == uid && true && true && true) = (t.UserID == uid)
      simp
    show (sortByCreatedDesc (s.tasks.filter
        (matchesFiltersList uid ⟨none, "", "", none, none, [], 0, 0⟩))).Perm
      (s.tasks.filter (fun t => t.UserID == uid))
    rw [hfe]
    exact sortByCreatedDesc_perm _

/-- C8 witness: applying the amended semantics to a concrete matching task
discharges the membership and the present-filter hypotheses. -/
theorem c8_witness :
    (⟨"t1", "Hello", "", false, "high", none, "u1", 0⟩ : Task).Priority = "high" := by
  have hmem : (⟨"t1", "Hello", "", false, "high", none, "u1", 0⟩ : Task) ∈
      getByUserID ⟨1, [activeUser], [⟨"t1", "Hello", "", false, "high", none, "u1", 0⟩], [], []⟩
        "u1" ⟨some false, "high", "ell", none, none, [], 0, 0⟩ := by
    have he : getByUserID
        ⟨1, [activeUser], [⟨"t1", "Hello", "", false, "high", none, "u1", 0⟩], [], []⟩
        "u1" ⟨some false, "high", "ell", none, none, [], 0, 0⟩
        = [⟨"t1", "Hello", "", false, "high", none, "u1", 0⟩] := by decide
    rw [he]
    exact List.mem_singleton.mpr rfl
  exact ((c8_filters_semantics).1 _ _ _ _ hmem).2.2.1 (by decide)

/-! ## C1, C3, C4: the composition path -/

/-- C1: when the link step after the task insert fails, the operation returns
the error, yet the Task row AND the Category row created during the
invocation persist in the committed state (only the link is absent).
WithTransaction's rollback cannot undo them: taskRepository.Create and
categoryRepository.Create run on r.db, the auto-commit pool handle
(main.go lines 315, 560), not on the transaction tx — only the link insert
(line 766) is transactional.  This contradicts the claim, the spec and the
example's own documentation ("atomic operation", "proper rollback
handling"), so the code, not the claim, is wrong. -/
theorem c1_partial_writes_persist :
    c1Run.1 = .error .fault
    ∧ c1Run.2.tasks.any (fun t => t.ID == "t1") = true
    ∧ c1Run.2.categories.any (fun c => c.Name == "A" && c.UserID == "u1") = true
    ∧ c1Run.2.taskCategories = [] := by
  refine ⟨by decide, by decide, by decide, by decide⟩

/-- C3 counterexample: starting from a database with no category named "A"
(the lookup legitimately finds none), a concurrent writer wins the race and
the category INSERT returns the unique-constraint violation (injected on the
fourth round trip: Begin, task INSERT, category SELECT, category INSERT).
CreateTaskWithCategories surfaces that duplicate-key error to its caller
instead of re-fetching: the create branch is a bare return err
(main.go lines 760-762). -/
theorem c3_duplicate_error_surfaced :
    (createTaskWithCategories freshState oneCatReq "u1" ["t1", "c1"]
        [none, none, none, some DBErr.uniqueViolation]).1
      = .error .uniqueViolation
    ∧ freshState.categories = [] := by
  refine ⟨by decide, rfl⟩

/-- C3 (amended): when the lookup finds no existing category and the
subsequent insert fails with the duplicate-key error, the category loop
returns that error as is — no re-fetch is attempted — and the transaction
aborts with it. -/
theorem c3_duplicate_error_returned_as_is
    (uid tid name : String) (rest : List String) (s : DBState)
    (tx : List (String × String)) (injRest : List (Option DBErr)) (ids : List String)
    (hmiss : categoryGetByName s name uid = .error .notFound) :
    handleCategories uid tid (name :: rest) s tx
        (none :: some DBErr.uniqueViolation :: injRest) ids
      = (.error .uniqueViolation, s, tx, injRest, (popId ids).2) := by
  unfold handleCategories popInj injected
  rw [hmiss]

/-- C3 witness: the amended behaviour at a concrete fresh database. -/
theorem c3_witness :
    handleCategories "u1" "t1" ["A"] freshState []
        [none, some DBErr.uniqueViolation] ["c1"]
      = (.error .uniqueViolation, freshState, [], [], []) :=
  c3_duplicate_error_returned_as_is "u1" "t1" "A" [] freshState [] [] ["c1"] (by decide)

/-- C4 counterexample: with an owner id referring to an existing but INACTIVE
user the operation does not fail at all — CreateTaskWithCategories performs
no owner lookup of any kind before inserting the task — so it cannot fail
with an OwnerNotFound error as the claim requires. -/
theorem c4_inactive_owner_accepted :
    (createTaskWithCategories inactiveState oneCatReq "u1" ["t1", "c1"] []).1.isOk = true
    ∧ inactiveState.users.all (fun u => !u.IsActive) = true := by
  refine ⟨by decide, by decide⟩

/-- C4 (amended): createTaskWithCategories performs no owner validation:
when the owner id matches no user row the operation fails only at the task
insert itself, with the store's foreign-key violation — not with an
OwnerNotFound error raised before the insert is attempted — and an existing
but inactive owner is accepted, the task being inserted for them. -/
theorem c4_no_owner_validation :
    (∀ (s : DBState) (req : CreateTaskRequest) (uid : String) (ids : List String),
      userExists s uid = false →
      s.tasks.any (fun t => t.ID == (popId ids).1) = false →
      createTaskWithCategories s req uid ids [] = (.error .fkViolation, s))
    ∧ (createTaskWithCategories inactiveState oneCatReq "u1" ["t1", "c1"] []).2.tasks.any
        (fun t => t.ID == "t1") = true := by
  constructor
  · intro s req uid ids hu hid
    unfold createTaskWithCategories popInj injected taskInsert
    simp [hu, hid]
  · decide

/-- C4 witness: the amended behaviour at a concrete database whose only user
is "u1", invoked with the unknown owner id "zz". -/
theorem c4_witness :
    createTaskWithCategories freshState oneCatReq "zz" ["t1", "c1"] []
      = (.error .fkViolation, freshState) :=
  (c4_no_owner_validation).1 freshState oneCatReq "zz" ["t1", "c1"] (by decide) (by decide)

/-! ## C5: idempotent find-or-create -/

theorem injected_ok {α : Type} (o : Option DBErr) (k : Except DBErr α) (a : α)
    (h : injected o k = .ok a) : k = .ok a := by
  cases o with
  | none => exact h
  | some e => exact absurd h (by simp [injected])

theorem categoryInsert_preserves (s : DBState) (c d : Category) (s' : DBState)
    (h : categoryInsert s c = .ok (d, s')) (hs : catNamesUnique s) : catNamesUnique s' := by
  unfold categoryInsert at h
  by_cases h1 : s.categories.any (fun x => x.ID == c.ID) = true
  · rw [if_pos h1] at h
    exact absurd h (by simp)
  · rw [if_neg h1] at h
    by_cases h2 : s.categories.any (fun x => x.Name == c.Name && x.UserID == c.UserID) = true
    · rw [if_pos h2] at h
      exact absurd h (by simp)
    · rw [if_neg h2] at h
      by_cases h3 : (!userExists s c.UserID) = true
      · rw [if_pos h3] at h
        exact absurd h (by simp)
      · rw [if_neg h3] at h
        injection h with h'
        injection h' with hd hstate
        subst hstate
        unfold catNamesUnique at hs ⊢
        rw [List.pairwise_append]
        refine ⟨hs, List.pairwise_singleton _ _, ?_⟩
        intro a ha b hb
        have hb' : b = { c with CreatedAt := s.now } := by simpa using hb
        subst hb'
        intro hcon
        apply h2
        rw [List.any_eq_true]
        refine ⟨a, ha, ?_⟩
        simp only [Bool.and_eq_true, beq_iff_eq]
        exact ⟨hcon.1, hcon.2⟩

theorem taskInsert_categories (s : DBState) (t t' : Task) (s' : DBState)
    (h : taskInsert s t = .ok (t', s')) : s'.categories = s.categories := by
  unfold taskInsert at h
  by_cases h1 : s.tasks.any (fun u => u.ID == t.ID) = true
  · rw [if_pos h1] at h
    exact absurd h (by simp)
  · rw [if_neg h1] at h
    by_cases h2 : (!userExists s t.UserID) = true
    · rw [if_pos h2] at h
      exact absurd h (by simp)
    · rw [if_neg h2] at h
      injection h with h'
      injection h' with ht hstate
      rw [← hstate]

theorem taskInsert_links (s : DBState) (t t' : Task) (s' : DBState)
    (h : taskInsert s t = .ok (t', s')) : s'.taskCategories = s.taskCategories := by
  unfold taskInsert at h
  by_cases h1 : s.tasks.any (fun u => u.ID == t.ID) = true
  · rw [if_pos h1] at h
    exact absurd h (by simp)
  · rw [if_neg h1] at h
    by_cases h2 : (!userExists s t.UserID) = true
    · rw [if_pos h2] at h
      exact absurd h (by simp)
    · rw [if_neg h2] at h
      injection h with h'
      injection h' with ht hstate
      rw [← hstate]

theorem categoryInsert_links (s : DBState) (c d : Category) (s' : DBState)
    (h : categoryInsert s c = .ok (d, s')) : s'.taskCategories = s.taskCategories := by
  unfold categoryInsert at h
  by_cases h1 : s.categories.any (fun x => x.ID == c.ID) = true
  · rw [if_pos h1] at h
    exact absurd h (by simp)
  · rw [if_neg h1] at h
    by_cases h2 : s.categories.any (fun x => x.Name == c.Name && x.UserID == c.UserID) = true
    · rw [if_pos h2] at h
      exact absurd h (by simp)
    · rw [if_neg h2] at h
      by_cases h3 : (!userExists s c.UserID) = true
      · rw [if_pos h3] at h
        exact absurd h (by simp)
      · rw [if_neg h3] at h
        injection h with h'
        injection h' with hd hstate
        rw [← hstate]

theorem linkInsert_nodup (s : DBState) (tx tx2 : List (String × String)) (tid cid : String)
    (h : linkInsert s tx tid cid = .ok tx2)
    (hn : (s.taskCategories ++ tx).Nodup) : (s.taskCategories ++ tx2).Nodup := by
  unfold linkInsert at h
  by_cases h1 : (!(s.tasks.any fun t => t.ID == tid)
      || !(s.categories.any fun c => c.ID == cid)) = true
  · rw [if_pos h1] at h
    exact absurd h (by simp)
  · rw [if_neg h1] at h
    by_cases h2 : ((s.taskCategories ++ tx).contains (tid, cid)) = true
    · rw [if_pos h2] at h
      injection h with h'
      rw [← h']
      exact hn
    · rw [if_neg h2] at h
      injection h with h'
      rw [← h', ← List.append_assoc]
      have hnm : (tid, cid) ∉ s.taskCategories ++ tx := by
        simpa using h2
      refine hn.append (List.nodup_singleton _) ?_
      intro a ha hb
      have : a = (tid, cid) := by simpa using hb
      exact hnm (this ▸ ha)

theorem handleCategories_nodup (uid tid : String) :
    ∀ (names : List String) (s : DBState) (tx : List (String × String))
      (inj : List (Option DBErr)) (ids : List String),
      (s.taskCategories ++ tx).Nodup →
      ((handleCategories uid tid names s tx inj ids).2.1.taskCategories
        ++ (handleCategories uid tid names s tx inj ids).2.2.1).Nodup
  | [], s, tx, inj, ids, hn => hn
  | name :: rest, s, tx, inj, ids, hn => by
    unfold handleCategories
    rcases hp1 : popInj inj with ⟨o1, inj1⟩
    dsimp only
    cases hlk : injected o1 (categoryGetByName s name uid) with
    | ok cat =>
      dsimp only
      rcases hp2 : popInj inj1 with ⟨o2, inj2⟩
      dsimp only
      cases hli : injected o2 (linkInsert s tx tid cat.ID) with
      | error e => exact hn
      | ok tx2 =>
        exact handleCategories_nodup uid tid rest s tx2 inj2 ids
          (linkInsert_nodup s tx tx2 tid cat.ID (injected_ok _ _ _ hli) hn)
    | error e =>
      dsimp only
      rcases hpd : popId ids with ⟨cid, ids2⟩
      dsimp only
      rcases hp2 : popInj inj1 with ⟨o2, inj2⟩
      dsimp only
      cases hci : injected o2 (categoryInsert s ⟨cid, name, "#3B82F6", uid, 0⟩) with
      | error e2 => exact hn
      | ok pr =>
        obtain ⟨cat, s2⟩ := pr
        dsimp only
        have hlinks := categoryInsert_links s _ cat s2 (injected_ok _ _ _ hci)
        have hn2 : (s2.taskCategories ++ tx).Nodup := by
          rw [hlinks]
          exact hn
        rcases hp3 : popInj inj2 with ⟨o3, inj3⟩
        dsimp only
        cases hli : injected o3 (linkInsert s2 tx tid cat.ID) with
        | error e3 => exact hn2
        | ok tx2 =>
          exact handleCategories_nodup uid tid rest s2 tx2 inj3 ids2
            (linkInsert_nodup s2 tx tx2 tid cat.ID (injected_ok _ _ _ hli) hn2)

theorem createTaskWithCategories_links_nodup (s : DBState) (req : CreateTaskRequest)
    (uid : String) (ids : List String) (inj : List (Option DBErr))
    (hn : s.taskCategories.Nodup) :
    (createTaskWithCategories s req uid ids inj).2.taskCategories.Nodup := by
  unfold createTaskWithCategories
  rcases hp0 : popInj inj with ⟨o0, inj0⟩
  dsimp only
  cases o0 with
  | some e => exact hn
  | none =>
    dsimp only
    rcases hpid : popId ids with ⟨tid, ids0⟩
    dsimp only
    rcases hp1 : popInj inj0 with ⟨o1, inj1⟩
    dsimp only
    cases hti : injected o1 (taskInsert s
        ⟨tid, req.Title, req.Description, false, req.Priority, req.DueDate, uid, 0⟩) with
    | error e => exact hn
    | ok pr =>
      dsimp only
      obtain ⟨task1, s1⟩ := pr
      have hl1 := taskInsert_links s _ task1 s1 (injected_ok _ _ _ hti)
      have hn1 : (s1.taskCategories ++ []).Nodup := by
        rw [List.append_nil, hl1]
        exact hn
      have hinv := handleCategories_nodup uid task1.ID req.CategoryNames s1 [] inj1 ids0 hn1
      rcases hhc : handleCategories uid task1.ID req.CategoryNames s1 [] inj1 ids0 with
        ⟨r, s2, tx, inj2, ids2⟩
      rw [hhc] at hinv
      dsimp only at hinv
      have hs2n : s2.taskCategories.Nodup :=
        hinv.sublist (List.sublist_append_left _ _)
      dsimp only
      cases r with
      | error e => exact hs2n
      | ok u =>
        cases u
        dsimp only
        rcases hpc : popInj inj2 with ⟨oc, inj3⟩
        dsimp only
        cases oc with
        | some e => exact hs2n
        | none =>
          dsimp only
          rcases hpg : popInj inj3 with ⟨og, inj4⟩
          dsimp only
          cases hgb : injected og
              (taskGetByID { s2 with taskCategories := s2.taskCategories ++ tx } task1.ID) with
          | error e => exact hinv
          | ok res => exact hinv


theorem handleCategories_preserves (uid tid : String) :
    ∀ (names : List String) (s : DBState) (tx : List (String × String))
      (inj : List (Option DBErr)) (ids : List String),
      catNamesUnique s →
      catNamesUnique (handleCategories uid tid names s tx inj ids).2.1
  | [], s, tx, inj, ids, hs => hs
  | name :: rest, s, tx, inj, ids, hs => by
    unfold handleCategories
    rcases hp1 : popInj inj with ⟨o1, inj1⟩
    dsimp only
    cases hlk : injected o1 (categoryGetByName s name uid) with
    | ok cat =>
      dsimp only
      rcases hp2 : popInj inj1 with ⟨o2, inj2⟩
      dsimp only
      cases hli : injected o2 (linkInsert s tx tid cat.ID) with
      | error e => exact hs
      | ok tx2 => exact handleCategories_preserves uid tid rest s tx2 inj2 ids hs
    | error e =>
      dsimp only
      rcases hpd : popId ids with ⟨cid, ids2⟩
      dsimp only
      rcases hp2 : popInj inj1 with ⟨o2, inj2⟩
      dsimp only
      cases hci : injected o2 (categoryInsert s ⟨cid, name, "#3B82F6", uid, 0⟩) with
      | error e2 => exact hs
      | ok pr =>
        obtain ⟨cat, s2⟩ := pr
        dsimp only
        have hs2 : catNamesUnique s2 :=
          categoryInsert_preserves s _ cat s2 (injected_ok _ _ _ hci) hs
        rcases hp3 : popInj inj2 with ⟨o3, inj3⟩
        dsimp only
        cases hli : injected o3 (linkInsert s2 tx tid cat.ID) with
        | error e3 => exact hs2
        | ok tx2 => exact handleCategories_preserves uid tid rest s2 tx2 inj3 ids2 hs2

theorem createTaskWithCategories_preserves (s : DBState) (req : CreateTaskRequest)
    (uid : String) (ids : List String) (inj : List (Option DBErr))
    (hs : catNamesUnique s) :
    catNamesUnique (createTaskWithCategories s req uid ids inj).2 := by
  unfold createTaskWithCategories
  rcases hp0 : popInj inj with ⟨o0, inj0⟩
  dsimp only
  cases o0 with
  | some e => exact hs
  | none =>
    dsimp only
    rcases hpid : popId ids with ⟨tid, ids0⟩
    dsimp only
    rcases hp1 : popInj inj0 with ⟨o1, inj1⟩
    dsimp only
    cases hti : injected o1 (taskInsert s
        ⟨tid, req.Title, req.Description, false, req.Priority, req.DueDate, uid, 0⟩) with
    | error e => exact hs
    | ok pr =>
      dsimp only
      obtain ⟨task1, s1⟩ := pr
      have hs1 : catNamesUnique s1 := by
        have hcat := taskInsert_categories s _ task1 s1 (injected_ok _ _ _ hti)
        unfold catNamesUnique at hs ⊢
        rw [hcat]
        exact hs
      rcases hhc : handleCategories uid task1.ID req.CategoryNames s1 [] inj1 ids0 with
        ⟨r, s2, tx, inj2, ids2⟩
      have hs2 : catNamesUnique s2 := by
        have hpres := handleCategories_preserves uid task1.ID req.CategoryNames s1 [] inj1 ids0 hs1
        rw [hhc] at hpres
        exact hpres
      dsimp only
      cases r with
      | error e => exact hs2
      | ok u =>
        cases u
        dsimp only
        rcases hpc : popInj inj2 with ⟨oc, inj3⟩
        dsimp only
        cases oc with
        | some e => exact hs2
        | none =>
          dsimp only
          rcases hpg : popInj inj3 with ⟨og, inj4⟩
          dsimp only
          cases hgb : injected og
              (taskGetByID { s2 with taskCategories := s2.taskCategories ++ tx } task1.ID) with
          | error e => exact hs2
          | ok res => exact hs2

/-- C5: duplicate names in the categoryNames input collapse to a single
linkage — the concrete ["A","B","A"] run creates exactly the two category
rows A and B and exactly two links, and in general the link table never
acquires a duplicated (task id, category id) pair on any run; inserting an
already-existing pair is a no-op, not an error (the ON CONFLICT DO NOTHING
insert); and no run of createTaskWithCategories, whatever responses the
environment injects, ever leaves two Category rows with the same
(name, user): every category insert path checks the unique constraint. -/
theorem c5_find_or_create_idempotent :
    ((createTaskWithCategories freshState ⟨"T", "D", "high", none, ["A", "B", "A"]⟩
        "u1" ["t1", "c1", "c2"] []).2.taskCategories = [("t1", "c1"), ("t1", "c2")]
      ∧ (createTaskWithCategories freshState ⟨"T", "D", "high", none, ["A", "B", "A"]⟩
        "u1" ["t1", "c1", "c2"] []).2.categories.map (fun c => (c.Name, c.UserID))
          = [("A", "u1"), ("B", "u1")])
    ∧ (∀ (s : DBState) (tx : List (String × String)) (tid cid : String),
        s.tasks.any (fun t => t.ID == tid) = true →
        s.categories.any (fun c => c.ID == cid) = true →
        (tid, cid) ∈ s.taskCategories ++ tx →
        linkInsert s tx tid cid = .ok tx)
    ∧ (∀ (s : DBState) (req : CreateTaskRequest) (uid : String)
        (ids : List String) (inj : List (Option DBErr)),
        catNamesUnique s →
        catNamesUnique (createTaskWithCategories s req uid ids inj).2)
    ∧ (∀ (s : DBState) (req : CreateTaskRequest) (uid : String)
        (ids : List String) (inj : List (Option DBErr)),
        s.taskCategories.Nodup →
        (createTaskWithCategories s req uid ids inj).2.taskCategories.Nodup) := by
  refine ⟨⟨by decide, by decide⟩, ?_, ?_, ?_⟩
  · intro s tx tid cid h1 h2 h3
    have hc : ((s.taskCategories ++ tx).contains (tid, cid)) = true := by
      simpa using h3
    unfold linkInsert
    rw [h1, h2, hc]
    rfl
  · exact fun s req uid ids inj hs => createTaskWithCategories_preserves s req uid ids inj hs
  · exact fun s req uid ids inj hn => createTaskWithCategories_links_nodup s req uid ids inj hn

/-- C5 witness: the link no-op at a concrete already-linked pair, and
invariant preservation on a concrete run. -/
theorem c5_witness :
    linkInsert ⟨2, [activeUser], [dueTask], [⟨"c1", "A", "#3B82F6", "u1", 1⟩],
        [("t1", "c1")]⟩ [] "t1" "c1" = .ok []
    ∧ catNamesUnique (createTaskWithCategories freshState oneCatReq "u1" ["t1", "c1"] []).2 := by
  constructor
  · exact (c5_find_or_create_idempotent).2.1 _ [] "t1" "c1" (by decide) (by decide) (by simp)
  · exact (c5_find_or_create_idempotent).2.2.1 freshState oneCatReq "u1" ["t1", "c1"] []
      List.Pairwise.nil

end TaskAPI
